import Mathlib

/-!
# LoadTileData (rex terrain engine): background build and main-thread merge of tile data

Shallow embedding of `src/osgEarthDrivers/engine_rex/LoadTileData.cpp`.

* `LoadTileData.invoke` (lines 73-171) builds the tile model and the scratch state set.
* `LoadTileData.apply` (lines 173-214) merges the scratch state set into the live tile.
* `UpdateInheritance` (lines 32-59) is the node visitor run over the merged tile's subtree.

Methods of collaborators whose bodies are not part of this translation unit
(`TileNode::mergeStateSet`, `TileNode::inheritState`, `TileNode::updateElevationData`,
the `OE_WARN` log) are recorded as `Call` events in the order the code issues them.
The tile's dirty flag, which `apply` writes directly, is kept in the scene itself.
-/

set_option autoImplicit false

namespace RexTerrainEngine

/-! ## Data model -/

/-- Unique id of a map layer (`osgEarth::UID`). -/
abbrev UID := Int

/-- Handle of a texture object (`osg::Texture*`), compared by identity. -/
structure Texture where
  id : Nat
deriving DecidableEq, Repr

/-- The 4x4 matrix carried by a sampler-matrix uniform (`osg::Matrixf`), row by row. -/
abbrev Matrixf := List (List Int)

/-- The value of `osg::Matrixf::identity()`. -/
def Matrixf.identity : Matrixf :=
  [[1, 0, 0, 0], [0, 1, 0, 0], [0, 0, 1, 0], [0, 0, 0, 1]]

/-- Position of a tile in the quadtree (`TileKey`). -/
structure TileKey where
  lod : Nat
  x : Nat
  y : Nat
deriving DecidableEq, Repr

/-- The image layer a layer model originates from; its identity is its unique id. -/
structure ImageLayer where
  uid : UID
deriving DecidableEq, Repr

/-- Semantic role of a sampler binding (`SamplerBinding::Usage`). -/
inductive Usage where
  | COLOR
  | ELEVATION
  | NORMAL
  | SHARED
deriving DecidableEq, Repr

/-- What a sampler binding is registered for: a semantic usage or a specific layer id. -/
inductive BindingTarget where
  | usage (u : Usage)
  | layer (uid : UID)
deriving DecidableEq, Repr

/-- Modelled from the spec: the `SamplerBinding` declaration (RenderBindings) is not part of
this translation unit. Each binding associates a semantic usage or a specific layer id with a
texture unit index and the name of the uniform that carries the layer's transform matrix. -/
structure SamplerBinding where
  target : BindingTarget
  unit : Nat
  matrixName : String
deriving DecidableEq, Repr

/-- The ordered table of sampler bindings (`RenderBindings`). -/
abbrev RenderBindings := List SamplerBinding

/-- Modelled from the spec: `SamplerBinding::findUsage` is declared outside this translation
unit. A pure lookup over the table by usage; absence (a null pointer in the source) is `none`. -/
def SamplerBinding.findUsage (bindings : RenderBindings) (usage : Usage) :
    Option SamplerBinding :=
  bindings.find? (fun b => decide (b.target = BindingTarget.usage usage))

/-- Modelled from the spec: `SamplerBinding::findUID` is declared outside this translation
unit. A pure lookup over the table by layer id; absence (a null pointer) is `none`. -/
def SamplerBinding.findUID (bindings : RenderBindings) (uid : UID) : Option SamplerBinding :=
  bindings.find? (fun b => decide (b.target = BindingTarget.layer uid))

/-- Per-layer data of a colour or shared layer (`TerrainTileImageLayerModel`): the
originating image layer and an optional texture. -/
structure TerrainTileImageLayerModel where
  imageLayer : ImageLayer
  texture : Option Texture
deriving DecidableEq, Repr

/-- Per-layer data of the elevation or the normal layer: an optional texture. -/
structure TerrainTileLayerModel where
  texture : Option Texture
deriving DecidableEq, Repr

/-- Snapshot of a tile's layer data (`TerrainTileModel`). The entries of the two layer
vectors are layer models, never null, so the null test of line 103 always passes. -/
structure TerrainTileModel where
  colorLayers : List TerrainTileImageLayerModel
  elevationModel : Option TerrainTileLayerModel
  normalModel : Option TerrainTileLayerModel
  sharedLayers : List TerrainTileImageLayerModel
deriving DecidableEq, Repr

/-- One pass of a multipass texture: the source layer and its texture. -/
structure MPTexture.Pass where
  layer : ImageLayer
  texture : Texture
deriving DecidableEq, Repr

/-- The composite (multipass) texture built from the colour layers (`MPTexture`). -/
structure MPTexture where
  passes : List MPTexture.Pass
deriving DecidableEq, Repr

/-- The value of `new MPTexture()`: no passes. -/
def MPTexture.new : MPTexture := ⟨[]⟩

/-- Modelled from the spec: `MPTexture::setLayer` is defined in the companion unit MPTexture.
It appends a pass recording the layer's identity and texture. -/
def MPTexture.setLayer (m : MPTexture) (layer : ImageLayer) (tex : Texture) : MPTexture :=
  ⟨m.passes ++ [⟨layer, tex⟩]⟩

/-- A texture attribute held by a state set at one unit: a plain texture or a composite.
`dynamic_cast<MPTexture*>` succeeds exactly on the second form. -/
inductive TextureAttribute where
  | texture (t : Texture)
  | mptexture (m : MPTexture)
deriving DecidableEq, Repr

/-- The result of `dynamic_cast<MPTexture*>` on a possibly null attribute pointer. -/
def TextureAttribute.asMPTexture : Option TextureAttribute → Option MPTexture
  | some (TextureAttribute.mptexture m) => some m
  | _ => none

/-- The part of `osg::StateSet` the job uses: at most one texture attribute per unit and at
most one uniform per name. -/
structure StateSet where
  textureAttributes : List (Nat × TextureAttribute)
  uniforms : List (String × Matrixf)
deriving DecidableEq, Repr

/-- The value of `new osg::StateSet()`. -/
def StateSet.new : StateSet := ⟨[], []⟩

/-- The texture attribute at a unit, if any (`getTextureAttribute(unit, TEXTURE)`). -/
def StateSet.getTextureAttribute (ss : StateSet) (unit : Nat) : Option TextureAttribute :=
  ss.textureAttributes.lookup unit

/-- Install a texture attribute at a unit, replacing the one already there
(`setTextureAttribute`). -/
def StateSet.setTextureAttribute (ss : StateSet) (unit : Nat) (attr : TextureAttribute) :
    StateSet :=
  { ss with textureAttributes :=
      (unit, attr) :: ss.textureAttributes.filter (fun p => !(p.1 == unit)) }

/-- Remove the given attribute from a unit if it is the one installed there
(`removeTextureAttribute(unit, attr)`). -/
def StateSet.removeTextureAttribute (ss : StateSet) (unit : Nat) (attr : TextureAttribute) :
    StateSet :=
  if ss.getTextureAttribute unit = some attr then
    { ss with textureAttributes := ss.textureAttributes.filter (fun p => !(p.1 == unit)) }
  else ss

/-- The uniform of a given name, if any (`getUniform`). -/
def StateSet.getUniform (ss : StateSet) (name : String) : Option Matrixf :=
  ss.uniforms.lookup name

/-- Install a uniform, replacing the one of the same name (`addUniform`). -/
def StateSet.addUniform (ss : StateSet) (name : String) (value : Matrixf) : StateSet :=
  { ss with uniforms := (name, value) :: ss.uniforms.filter (fun p => !(p.1 == name)) }

/-! ## Scene -/

/-- Identity of a live `TileNode` object; what a weak reference stores. -/
abbrev TileRef := Nat

/-- The fields of a tile node the job reads or writes: the identity of the object, its key
(`getTileKey()`), the tile returned by `getParentTile()` (the reference the tile keeps to its
parent tile, absent for a tile without parent), and the dirty flag written by `setDirty`. -/
structure TileInfo where
  ref : TileRef
  key : TileKey
  parentTile : Option TileRef
  dirty : Bool
deriving DecidableEq, Repr

/-- A scene-graph node: a tile node (a group), another group, or a node without children. -/
inductive Node where
  | tile (info : TileInfo) (children : List Node)
  | group (children : List Node)
  | leaf

/-- A live `TileNode`: its own fields and the subgraph below it. -/
structure TileNode where
  info : TileInfo
  children : List Node

/-- The tile node seen as a scene-graph node. -/
def TileNode.toNode (t : TileNode) : Node := Node.tile t.info t.children

/-- The live tile objects. A destroyed tile is no longer among them. -/
structure Scene where
  tiles : List TileNode

/-- Promote a weak tile reference (`observer_ptr::lock`): the live tile object with that
identity; fails when the tile is gone. -/
def Scene.lock (scene : Scene) (ref : TileRef) : Option TileNode :=
  scene.tiles.find? (fun t => decide (t.info.ref = ref))

/-- Write the dirty flag of the tile object with the given identity. -/
def setDirtyIn (ref : TileRef) (value : Bool) : List TileNode → List TileNode
  | [] => []
  | t :: ts =>
      if t.info.ref = ref then { t with info := { t.info with dirty := value } } :: ts
      else t :: setDirtyIn ref value ts

/-- The effect of `tilenode->setDirty(value)` on the tile with the given identity. -/
def Scene.setDirty (scene : Scene) (ref : TileRef) (value : Bool) : Scene :=
  ⟨setDirtyIn ref value scene.tiles⟩

/-- Opaque selection (LOD range) information passed through to `inheritState`. -/
structure SelectionInfo where
  id : Nat
deriving DecidableEq, Repr

/-- Opaque map metadata passed through to `updateElevationData`. -/
structure MapInfo where
  id : Nat
deriving DecidableEq, Repr

/-- The map frame the tile model is built from; it carries the map metadata. -/
structure MapFrame where
  mapInfo : MapInfo
deriving DecidableEq, Repr

/-- A call the job issues on a collaborator whose body lies outside this unit. -/
inductive Call where
  | mergeStateSet (tile : TileRef) (stateSet : StateSet) (mptex : Option MPTexture)
      (bindings : RenderBindings)
  | inheritState (tile : TileRef) (parent : Option TileRef) (bindings : RenderBindings)
      (selectionInfo : SelectionInfo)
  | updateElevationData (tile : TileRef) (bindings : RenderBindings) (mapInfo : MapInfo)
      (tileSize : Nat)
  | warn (message : String)
deriving DecidableEq, Repr

/-- What the job reads from the shared `EngineContext`. The tile-model builder of the engine
is an external collaborator and is taken as a function. -/
structure EngineContext where
  createTileModel : MapFrame → TileKey → Option TerrainTileModel
  mapFrame : MapFrame
  renderBindings : RenderBindings
  selectionInfo : SelectionInfo
  tileSize : Nat

/-! ## UpdateInheritance (lines 32-59) -/

/-- The visitor that recalculates the sampler inheritance matrices in a graph. -/
structure UpdateInheritance where
  _bindings : RenderBindings
  _selectionInfo : SelectionInfo
  _mapInfo : MapInfo
  _tileSize : Nat
deriving DecidableEq, Repr

mutual
/-- The calls issued by `node.accept(visitor)`: `apply(osg::Group&)` on a group (lines 43-53),
which recomputes a tile node and then traverses all children; nothing on other nodes. -/
def UpdateInheritance.accept (v : UpdateInheritance) : Node → List Call
  | Node.tile info children =>
      [Call.inheritState info.ref info.parentTile v._bindings v._selectionInfo,
       Call.updateElevationData info.ref v._bindings v._mapInfo v._tileSize]
        ++ UpdateInheritance.traverse v children
  | Node.group children => UpdateInheritance.traverse v children
  | Node.leaf => []
/-- The calls issued by `traverse(node)` in mode TRAVERSE_ALL_CHILDREN: every child accepts
the visitor, in order. -/
def UpdateInheritance.traverse (v : UpdateInheritance) : List Node → List Call
  | [] => []
  | child :: rest => UpdateInheritance.accept v child ++ UpdateInheritance.traverse v rest
end

/-! ## LoadTileData -/

/-- The load request: a weak reference to the tile, the engine context, the tile model built
by `invoke`, and the scratch state set of the request (created on first use). -/
structure LoadTileData where
  _tilenode : TileRef
  _context : EngineContext
  _model : Option TerrainTileModel
  _stateSet : Option StateSet

/-- The constructor (lines 65-70). -/
def LoadTileData.new (tilenode : TileRef) (context : EngineContext) : LoadTileData :=
  ⟨tilenode, context, none, none⟩

/-- Modelled from the spec: `getStateSet()` belongs to the request base class, outside this
translation unit. It yields the request's scratch state set, creating an empty one on first
use (no scratch state exists until it is asked for). -/
def LoadTileData.getStateSet (job : LoadTileData) : StateSet :=
  job._stateSet.getD StateSet.new

/-- The loop of lines 98-107: one `setLayer` per colour layer that has a texture. -/
def buildMPTexture (colorLayers : List TerrainTileImageLayerModel) : MPTexture :=
  colorLayers.foldl
    (fun mptex layerModel =>
      match layerModel.texture with
      | some tex => mptex.setLayer layerModel.imageLayer tex
      | none => mptex)
    MPTexture.new

/-- Lines 91-116: the composite texture of the colour layers. -/
def prepColor (bindings : RenderBindings) (model : TerrainTileModel) (stateSet : StateSet) :
    StateSet :=
  if model.colorLayers.length > 0 then
    match SamplerBinding.findUsage bindings Usage.COLOR with
    | some colorBinding =>
        let mptex := buildMPTexture model.colorLayers
        if !mptex.passes.isEmpty then
          stateSet.setTextureAttribute colorBinding.unit (TextureAttribute.mptexture mptex)
        else stateSet
    | none => stateSet
  else stateSet

/-- Lines 118-131 and 133-146: a layer bound by usage (elevation, normal). -/
def prepUsage (bindings : RenderBindings) (usage : Usage)
    (layerModel : Option TerrainTileLayerModel) (stateSet : StateSet) : StateSet :=
  match layerModel with
  | some lm =>
      match lm.texture with
      | some tex =>
          match SamplerBinding.findUsage bindings usage with
          | some binding =>
              (stateSet.setTextureAttribute binding.unit (TextureAttribute.texture tex)).addUniform
                binding.matrixName Matrixf.identity
          | none => stateSet
      | none => stateSet
  | none => stateSet

/-- Lines 153-167: the body of the loop over the shared layers. -/
def prepSharedLayer (bindings : RenderBindings) (stateSet : StateSet)
    (layerModel : TerrainTileImageLayerModel) : StateSet :=
  match layerModel.texture with
  | some tex =>
      match SamplerBinding.findUID bindings layerModel.imageLayer.uid with
      | some binding =>
          (stateSet.setTextureAttribute binding.unit (TextureAttribute.texture tex)).addUniform
            binding.matrixName Matrixf.identity
      | none => stateSet
  | none => stateSet

/-- Lines 148-168: the loop over the shared layers. -/
def prepShared (bindings : RenderBindings) (sharedLayers : List TerrainTileImageLayerModel)
    (stateSet : StateSet) : StateSet :=
  sharedLayers.foldl (prepSharedLayer bindings) stateSet

/-- Lines 87-168: prepare the state set for merging. -/
def prepStateSet (bindings : RenderBindings) (model : TerrainTileModel) (stateSet : StateSet) :
    StateSet :=
  prepShared bindings model.sharedLayers
    (prepUsage bindings Usage.NORMAL model.normalModel
      (prepUsage bindings Usage.ELEVATION model.elevationModel
        (prepColor bindings model stateSet)))

/-- The background phase, `LoadTileData::invoke` (lines 73-171). -/
def LoadTileData.invoke (job : LoadTileData) (scene : Scene) : LoadTileData :=
  match scene.lock job._tilenode with
  | some tilenode =>
      match job._context.createTileModel job._context.mapFrame tilenode.info.key with
      | some model =>
          { job with
            _model := some model
            _stateSet := some (prepStateSet job._context.renderBindings model job.getStateSet) }
      | none => { job with _model := none }
  | none => job

/-- A fault that ends the process instead of returning. -/
inductive Fault where
  | nullDereference
deriving DecidableEq, Repr

/-- What `apply` leaves behind when it returns. -/
structure ApplyResult where
  job : LoadTileData
  scene : Scene
  calls : List Call

/-- The text of the warning of line 211. -/
def tileGoneWarning : String := "[LoadTileData] LoadTileData failed; TileNode disappeared\n"

/-- The merge phase, `LoadTileData::apply` (lines 173-214). Line 189 reads `color->unit()`
without testing `color`; with a null `color` that is a null dereference. -/
def LoadTileData.apply (job : LoadTileData) (scene : Scene) : Except Fault ApplyResult :=
  match job._model with
  | some _ =>
      match scene.lock job._tilenode with
      | some tilenode =>
          let bindings := job._context.renderBindings
          let selectionInfo := job._context.selectionInfo
          let mapInfo := job._context.mapFrame.mapInfo
          match SamplerBinding.findUsage bindings Usage.COLOR with
          | none => Except.error Fault.nullDereference
          | some color =>
              let mptex := TextureAttribute.asMPTexture
                (job.getStateSet.getTextureAttribute color.unit)
              let stateSet :=
                match mptex with
                | some m =>
                    job.getStateSet.removeTextureAttribute color.unit
                      (TextureAttribute.mptexture m)
                | none => job.getStateSet
              let update : UpdateInheritance :=
                ⟨bindings, selectionInfo, mapInfo, job._context.tileSize⟩
              Except.ok
                { job := { job with _model := none, _stateSet := some stateSet }
                  scene := scene.setDirty tilenode.info.ref false
                  calls :=
                    Call.mergeStateSet tilenode.info.ref stateSet mptex bindings
                      :: update.accept tilenode.toNode }
      | none => Except.ok ⟨job, scene, [Call.warn tileGoneWarning]⟩
  | none => Except.ok ⟨job, scene, []⟩

/-! ## Vocabulary of the properties -/

/-- The children of a scene-graph node. -/
def Node.children : Node → List Node
  | Node.tile _ children => children
  | Node.group children => children
  | Node.leaf => []

/-- The tile fields of a node that is a tile node. -/
def Node.tileInfo? : Node → Option TileInfo
  | Node.tile info _ => some info
  | _ => none

mutual
/-- Every node of the subgraph below and including a node, parents before children. -/
def Node.preorder : Node → List Node
  | Node.tile info children => Node.tile info children :: Node.preorderAll children
  | Node.group children => Node.group children :: Node.preorderAll children
  | Node.leaf => [Node.leaf]
/-- The nodes of the subgraphs of a list of nodes, one subgraph after the other. -/
def Node.preorderAll : List Node → List Node
  | [] => []
  | child :: rest => Node.preorder child ++ Node.preorderAll rest
end

/-- A node is a descendant of another when a chain of child links leads to it; every node
counts as its own descendant. -/
inductive Node.Descendant : Node → Node → Prop where
  | self (n : Node) : Node.Descendant n n
  | step {n c d : Node} (hc : c ∈ n.children) (hd : Node.Descendant c d) : Node.Descendant n d

/-- The two recomputations the visitor owes one tile: sampler inheritance from the tile's own
parent, then elevation data. -/
def UpdateInheritance.recompute (v : UpdateInheritance) (info : TileInfo) : List Call :=
  [Call.inheritState info.ref info.parentTile v._bindings v._selectionInfo,
   Call.updateElevationData info.ref v._bindings v._mapInfo v._tileSize]

/-- Whether a call is a call of the tile's merge operation. -/
def Call.isMergeStateSet : Call → Bool
  | Call.mergeStateSet _ _ _ _ => true
  | _ => false

/-- The passes the colour layers call for: one per layer that has a texture, in order. -/
def expectedPasses (colorLayers : List TerrainTileImageLayerModel) : List MPTexture.Pass :=
  colorLayers.filterMap (fun l => l.texture.map (fun tex => ⟨l.imageLayer, tex⟩))

/-! ## Concrete inputs -/

/-- Bindings of the scenario: COLOR at unit 0, ELEVATION at unit 1. -/
def scenarioBindings : RenderBindings :=
  [⟨BindingTarget.usage Usage.COLOR, 0, "colorMatrix"⟩,
   ⟨BindingTarget.usage Usage.ELEVATION, 1, "elevMatrix"⟩]

/-- A bindings table that lacks a COLOR binding. -/
def elevationOnlyBindings : RenderBindings :=
  [⟨BindingTarget.usage Usage.ELEVATION, 1, "elevMatrix"⟩]

/-- Model of the scenario: one textured colour layer and one textured elevation layer. -/
def scenarioModel : TerrainTileModel :=
  ⟨[⟨⟨5⟩, some ⟨100⟩⟩], some ⟨some ⟨200⟩⟩, none, []⟩

/-- The engine context of the scenario. -/
def scenarioContext : EngineContext :=
  ⟨fun _ _ => some scenarioModel, ⟨⟨0⟩⟩, scenarioBindings, ⟨0⟩, 17⟩

/-- The scenario's context with a bindings table that lacks a COLOR binding. -/
def elevationOnlyContext : EngineContext :=
  ⟨fun _ _ => some scenarioModel, ⟨⟨0⟩⟩, elevationOnlyBindings, ⟨0⟩, 17⟩

/-- The scenario's context with no bindings at all. -/
def noBindingsContext : EngineContext :=
  ⟨fun _ _ => some scenarioModel, ⟨⟨0⟩⟩, [], ⟨0⟩, 17⟩

/-- The scenario's context with COLOR and NORMAL bindings but no ELEVATION binding. -/
def colorOnlyContext : EngineContext :=
  ⟨fun _ _ => some scenarioModel, ⟨⟨0⟩⟩,
    [⟨BindingTarget.usage Usage.COLOR, 0, "colorMatrix"⟩,
     ⟨BindingTarget.usage Usage.NORMAL, 2, "normalMatrix"⟩], ⟨0⟩, 17⟩

/-- A context whose tile-model builder finds no data. -/
def noDataContext : EngineContext :=
  ⟨fun _ _ => none, ⟨⟨0⟩⟩, scenarioBindings, ⟨0⟩, 17⟩

/-- A dirty tile with a child tile below a plain group, and a childless node. -/
def scenarioTile : TileNode :=
  ⟨⟨7, ⟨1, 0, 0⟩, none, true⟩,
   [Node.group [Node.tile ⟨8, ⟨2, 0, 0⟩, some 7, true⟩ [], Node.leaf]]⟩

/-- The scene while the tile is alive. -/
def scenarioScene : Scene := ⟨[scenarioTile]⟩

/-- The scene after the tile has been destroyed. -/
def goneScene : Scene := ⟨[]⟩

/-- The job of the scenario after its background phase. -/
def scenarioJob : LoadTileData := (LoadTileData.new 7 scenarioContext).invoke scenarioScene

/-- The context with a tile-model builder that returns the given model. -/
def EngineContext.withModel (ctx : EngineContext) (model : TerrainTileModel) : EngineContext :=
  { ctx with createTileModel := fun _ _ => some model }

/-- A state set holds no composite texture at any unit. -/
def StateSet.NoComposite (ss : StateSet) : Prop :=
  ∀ p ∈ ss.textureAttributes, ∀ m, p.2 ≠ TextureAttribute.mptexture m

/-- What `apply` returns in the scenario: the model released, the composite detached from
the scratch state and passed to the merge, the subtree visited, the dirty flag cleared. -/
def scenarioMerged : ApplyResult :=
  { job :=
      { scenarioJob with
        _model := none
        _stateSet :=
          some ⟨[(1, TextureAttribute.texture ⟨200⟩)], [("elevMatrix", Matrixf.identity)]⟩ }
    scene := ⟨[⟨⟨7, ⟨1, 0, 0⟩, none, false⟩, scenarioTile.children⟩]⟩
    calls :=
      [Call.mergeStateSet 7
          ⟨[(1, TextureAttribute.texture ⟨200⟩)], [("elevMatrix", Matrixf.identity)]⟩
          (some ⟨[⟨⟨5⟩, ⟨100⟩⟩]⟩) scenarioBindings,
        Call.inheritState 7 none scenarioBindings ⟨0⟩,
        Call.updateElevationData 7 scenarioBindings ⟨0⟩ 17,
        Call.inheritState 8 (some 7) scenarioBindings ⟨0⟩,
        Call.updateElevationData 8 scenarioBindings ⟨0⟩ 17] }

/-- A model with a textured shared layer of id 42 between two other shared layers. -/
def sharedModel : TerrainTileModel :=
  ⟨[], none, none, [⟨⟨41⟩, some ⟨301⟩⟩, ⟨⟨42⟩, some ⟨302⟩⟩, ⟨⟨43⟩, none⟩]⟩

/-- Bindings for usages and for layer 41, none for layer 42. -/
def sharedBindings : RenderBindings :=
  [⟨BindingTarget.usage Usage.COLOR, 0, "colorMatrix"⟩,
   ⟨BindingTarget.usage Usage.SHARED, 3, "sharedMatrix"⟩,
   ⟨BindingTarget.layer 41, 4, "layer41Matrix"⟩]

/-- A context that yields the model with shared layers, under the shared-layer bindings. -/
def sharedContext : EngineContext :=
  ⟨fun _ _ => some sharedModel, ⟨⟨0⟩⟩, sharedBindings, ⟨0⟩, 17⟩

/-- A model with textured colour layers around one without texture. -/
def colorModel : TerrainTileModel :=
  ⟨[⟨⟨5⟩, some ⟨100⟩⟩, ⟨⟨6⟩, none⟩, ⟨⟨7⟩, some ⟨101⟩⟩], none, none, []⟩

/-- A model whose colour layers have no texture. -/
def untexturedModel : TerrainTileModel :=
  ⟨[⟨⟨5⟩, none⟩, ⟨⟨6⟩, none⟩], some ⟨some ⟨200⟩⟩, none, []⟩

/-! ## The inheritance visitor -/

mutual
theorem accept_eq_recompute_preorder (v : UpdateInheritance) :
    ∀ n : Node, v.accept n = (n.preorder.filterMap Node.tileInfo?).flatMap v.recompute
  | Node.tile info children => by
      simp [UpdateInheritance.accept, Node.preorder, Node.tileInfo?,
        UpdateInheritance.recompute, traverse_eq_recompute_preorder v children]
  | Node.group children => by
      simp [UpdateInheritance.accept, Node.preorder, Node.tileInfo?,
        traverse_eq_recompute_preorder v children]
  | Node.leaf => by
      simp [UpdateInheritance.accept, Node.preorder, Node.tileInfo?]
theorem traverse_eq_recompute_preorder (v : UpdateInheritance) :
    ∀ ns : List Node,
      v.traverse ns = ((Node.preorderAll ns).filterMap Node.tileInfo?).flatMap v.recompute
  | [] => by simp [UpdateInheritance.traverse, Node.preorderAll]
  | child :: rest => by
      simp [UpdateInheritance.traverse, Node.preorderAll,
        accept_eq_recompute_preorder v child, traverse_eq_recompute_preorder v rest]
end

theorem self_mem_preorder : ∀ n : Node, n ∈ n.preorder
  | Node.tile _ _ => by simp [Node.preorder]
  | Node.group _ => by simp [Node.preorder]
  | Node.leaf => by simp [Node.preorder]

theorem preorder_eq_cons (n : Node) : n.preorder = n :: Node.preorderAll n.children := by
  cases n <;> simp [Node.preorder, Node.preorderAll, Node.children]

theorem mem_preorderAll {d : Node} :
    ∀ ns : List Node, d ∈ Node.preorderAll ns ↔ ∃ c ∈ ns, d ∈ c.preorder
  | [] => by simp [Node.preorderAll]
  | child :: rest => by
      simp [Node.preorderAll, mem_preorderAll rest]

mutual
theorem descendant_of_mem_preorder :
    ∀ (n d : Node), d ∈ n.preorder → Node.Descendant n d
  | Node.tile info children, d, h => by
      simp only [Node.preorder, List.mem_cons] at h
      rcases h with h | h
      · subst h; exact Node.Descendant.self _
      · obtain ⟨c, hc, hd⟩ := descendant_of_mem_preorderAll children d h
        exact Node.Descendant.step (by simpa [Node.children] using hc) hd
  | Node.group children, d, h => by
      simp only [Node.preorder, List.mem_cons] at h
      rcases h with h | h
      · subst h; exact Node.Descendant.self _
      · obtain ⟨c, hc, hd⟩ := descendant_of_mem_preorderAll children d h
        exact Node.Descendant.step (by simpa [Node.children] using hc) hd
  | Node.leaf, d, h => by
      simp only [Node.preorder, List.mem_singleton] at h
      subst h; exact Node.Descendant.self _
theorem descendant_of_mem_preorderAll :
    ∀ (ns : List Node) (d : Node), d ∈ Node.preorderAll ns →
      ∃ c, c ∈ ns ∧ Node.Descendant c d
  | [], d, h => by simp [Node.preorderAll] at h
  | child :: rest, d, h => by
      simp only [Node.preorderAll, List.mem_append] at h
      rcases h with h | h
      · exact ⟨child, by simp, descendant_of_mem_preorder child d h⟩
      · obtain ⟨c, hc, hd⟩ := descendant_of_mem_preorderAll rest d h
        exact ⟨c, by simp [hc], hd⟩
end

theorem mem_preorder_of_descendant {n d : Node} (h : Node.Descendant n d) : d ∈ n.preorder := by
  induction h with
  | self n => exact self_mem_preorder n
  | step hc _ ih =>
      rw [preorder_eq_cons]
      exact List.mem_cons_of_mem _ ((mem_preorderAll _).2 ⟨_, hc, ih⟩)

theorem mem_preorder_iff_descendant (n d : Node) : d ∈ n.preorder ↔ Node.Descendant n d :=
  ⟨descendant_of_mem_preorder n d, mem_preorder_of_descendant⟩

/-- C10: on every (finite) subgraph the traversal returns, and what it does is exactly the
two recomputations of `recompute` (sampler inheritance from the tile's own parent, then
elevation data with the visitor's bindings, map metadata and tile size), once for each tile
node occurrence of the subgraph in parent-before-child order; the nodes listed are exactly
the root and its descendants, whatever kind of group lies in between, so every descendant
tile gets its recomputations, every recorded call belongs to a descendant tile (nodes that
are not tiles contribute nothing), and there are two calls per tile. -/
theorem update_inheritance_visits_every_tile_once (v : UpdateInheritance) (root : Node) :
    v.accept root = (root.preorder.filterMap Node.tileInfo?).flatMap v.recompute
      ∧ (∀ d : Node, d ∈ root.preorder ↔ Node.Descendant root d)
      ∧ (∀ info children, Node.Descendant root (Node.tile info children) →
          ∀ c ∈ v.recompute info, c ∈ v.accept root)
      ∧ (∀ c ∈ v.accept root, ∃ info children,
          Node.Descendant root (Node.tile info children) ∧ c ∈ v.recompute info)
      ∧ (v.accept root).length = 2 * (root.preorder.filterMap Node.tileInfo?).length := by
  refine ⟨accept_eq_recompute_preorder v root, mem_preorder_iff_descendant root, ?_, ?_, ?_⟩
  · intro info children hd c hc
    rw [accept_eq_recompute_preorder, List.mem_flatMap]
    refine ⟨info, ?_, hc⟩
    rw [List.mem_filterMap]
    exact ⟨_, (mem_preorder_iff_descendant root _).2 hd, rfl⟩
  · intro c hc
    rw [accept_eq_recompute_preorder, List.mem_flatMap] at hc
    obtain ⟨info, hinfo, hc⟩ := hc
    rw [List.mem_filterMap] at hinfo
    obtain ⟨n, hn, hti⟩ := hinfo
    cases n with
    | tile i cs =>
        simp only [Node.tileInfo?, Option.some.injEq] at hti
        subst hti
        exact ⟨i, cs, (mem_preorder_iff_descendant root _).1 hn, hc⟩
    | group cs => simp [Node.tileInfo?] at hti
    | leaf => simp [Node.tileInfo?] at hti
  · rw [accept_eq_recompute_preorder]
    generalize root.preorder.filterMap Node.tileInfo? = l
    induction l with
    | nil => simp
    | cons a l ih =>
        simp only [List.flatMap_cons, List.length_append, ih, List.length_cons]
        simp [UpdateInheritance.recompute]
        omega

/-! ## The merge phase -/

theorem lock_ref {scene : Scene} {ref : TileRef} {t : TileNode}
    (h : scene.lock ref = some t) : t.info.ref = ref := by
  have := List.find?_some h
  simpa using this

theorem lock_setDirtyIn (ref : TileRef) (value : Bool) :
    ∀ ts : List TileNode,
      (setDirtyIn ref value ts).find? (fun t => decide (t.info.ref = ref))
        = (ts.find? (fun t => decide (t.info.ref = ref))).map
            (fun t => { t with info := { t.info with dirty := value } })
  | [] => by simp [setDirtyIn]
  | t :: ts => by
      by_cases h : t.info.ref = ref
      · simp [setDirtyIn, h]
      · simp [setDirtyIn, h, lock_setDirtyIn ref value ts]

theorem lock_setDirty (scene : Scene) (ref : TileRef) (value : Bool) :
    (scene.setDirty ref value).lock ref
      = (scene.lock ref).map (fun t => { t with info := { t.info with dirty := value } }) :=
  lock_setDirtyIn ref value scene.tiles

theorem accept_not_merge (v : UpdateInheritance) (n : Node) :
    (v.accept n).filter Call.isMergeStateSet = [] := by
  rw [List.filter_eq_nil_iff]
  intro c hc
  rw [accept_eq_recompute_preorder, List.mem_flatMap] at hc
  obtain ⟨info, _, hc⟩ := hc
  simp only [UpdateInheritance.recompute, List.mem_cons, List.mem_singleton,
    List.not_mem_nil, or_false] at hc
  rcases hc with hc | hc <;> subst hc <;> simp [Call.isMergeStateSet]

/-- C1: when the job holds a model and the weak tile reference no longer resolves, `apply`
returns normally with the scene exactly as it was (so no dirty flag changed), the job as it
was, and a single recorded call, the warning: no merge call, no inheritance recomputation.
This branch is the one the state machine calls Abandoned. -/
theorem apply_abandoned_leaves_scene_unmodified (job : LoadTileData) (scene : Scene)
    (model : TerrainTileModel) (hmodel : job._model = some model)
    (hgone : scene.lock job._tilenode = none) :
    job.apply scene = Except.ok ⟨job, scene, [Call.warn tileGoneWarning]⟩
      ∧ ∀ r, job.apply scene = Except.ok r →
          r.scene = scene ∧ r.calls.filter Call.isMergeStateSet = []
            ∧ (∀ c ∈ r.calls, c = Call.warn tileGoneWarning) := by
  have h : job.apply scene = Except.ok ⟨job, scene, [Call.warn tileGoneWarning]⟩ := by
    simp [LoadTileData.apply, hmodel, hgone]
  refine ⟨h, ?_⟩
  intro r hr
  rw [h] at hr
  cases hr
  simp [Call.isMergeStateSet]

theorem apply_abandoned_leaves_scene_unmodified_witness :
    scenarioJob._model = some scenarioModel
      ∧ goneScene.lock scenarioJob._tilenode = none
      ∧ (scenarioJob.apply goneScene
            = Except.ok ⟨scenarioJob, goneScene, [Call.warn tileGoneWarning]⟩
          ∧ ∀ r, scenarioJob.apply goneScene = Except.ok r →
              r.scene = goneScene ∧ r.calls.filter Call.isMergeStateSet = []
                ∧ (∀ c ∈ r.calls, c = Call.warn tileGoneWarning)) :=
  ⟨rfl, rfl, apply_abandoned_leaves_scene_unmodified scenarioJob goneScene scenarioModel rfl rfl⟩

/-- C5: with a model in hand and the tile alive, a bindings table without a COLOR binding
makes `apply` read the unit of a null binding (line 189): it faults instead of merging. -/
theorem apply_faults_without_color_binding (job : LoadTileData) (scene : Scene)
    (model : TerrainTileModel) (tilenode : TileNode) (hmodel : job._model = some model)
    (hlock : scene.lock job._tilenode = some tilenode)
    (hnone : SamplerBinding.findUsage job._context.renderBindings Usage.COLOR = none) :
    job.apply scene = Except.error Fault.nullDereference := by
  simp [LoadTileData.apply, hmodel, hlock, hnone]

theorem apply_faults_without_color_binding_witness :
    ((LoadTileData.new 7 noBindingsContext).invoke scenarioScene)._model = some scenarioModel
      ∧ scenarioScene.lock ((LoadTileData.new 7 noBindingsContext).invoke scenarioScene)._tilenode
          = some scenarioTile
      ∧ SamplerBinding.findUsage
          ((LoadTileData.new 7 noBindingsContext).invoke scenarioScene)._context.renderBindings
          Usage.COLOR = none
      ∧ ((LoadTileData.new 7 noBindingsContext).invoke scenarioScene).apply scenarioScene
          = Except.error Fault.nullDereference :=
  ⟨rfl, rfl, rfl,
    apply_faults_without_color_binding _ scenarioScene scenarioModel scenarioTile rfl rfl rfl⟩

/-- C4, at a bindings table with pairwise distinct units that lacks a COLOR binding: the
background phase attaches the elevation texture at unit 1 with its identity uniform, and the
merge phase then faults at line 189 before any merge call; the same defect as in C5. -/
theorem apply_scenario_without_color_binding_faults :
    elevationOnlyBindings.Pairwise (fun a b => a.unit ≠ b.unit)
      ∧ scenarioScene.lock 7 = some scenarioTile
      ∧ ((LoadTileData.new 7 elevationOnlyContext).invoke scenarioScene)._stateSet
          = some ⟨[(1, TextureAttribute.texture ⟨200⟩)], [("elevMatrix", Matrixf.identity)]⟩
      ∧ ((LoadTileData.new 7 elevationOnlyContext).invoke scenarioScene).apply scenarioScene
          = Except.error Fault.nullDereference := by
  refine ⟨?_, rfl, rfl, rfl⟩
  simp [elevationOnlyBindings]

/-- C6: when the background phase ends without a model, because the tile was already gone or
because the builder found no data, the job holds no model and no scratch state, and a later
`apply` on any scene returns with job and scene as they were and no call recorded. -/
theorem apply_noop_without_model (ctx : EngineContext) (ref : TileRef) (scene1 scene2 : Scene)
    (h : scene1.lock ref = none
      ∨ ∃ t, scene1.lock ref = some t ∧ ctx.createTileModel ctx.mapFrame t.info.key = none) :
    ((LoadTileData.new ref ctx).invoke scene1)._model = none
      ∧ ((LoadTileData.new ref ctx).invoke scene1)._stateSet = none
      ∧ ((LoadTileData.new ref ctx).invoke scene1).apply scene2
          = Except.ok ⟨(LoadTileData.new ref ctx).invoke scene1, scene2, []⟩ := by
  rcases h with h | ⟨t, h, hnone⟩
  · simp [LoadTileData.invoke, LoadTileData.new, LoadTileData.apply, h]
  · simp [LoadTileData.invoke, LoadTileData.new, LoadTileData.apply, h, hnone]

theorem apply_noop_without_model_witness :
    (scenarioScene.lock 7 = none
      ∨ ∃ t, scenarioScene.lock 7 = some t
          ∧ noDataContext.createTileModel noDataContext.mapFrame t.info.key = none)
      ∧ ((LoadTileData.new 7 noDataContext).invoke scenarioScene)._model = none
      ∧ ((LoadTileData.new 7 noDataContext).invoke scenarioScene)._stateSet = none
      ∧ ((LoadTileData.new 7 noDataContext).invoke scenarioScene).apply scenarioScene
          = Except.ok ⟨(LoadTileData.new 7 noDataContext).invoke scenarioScene,
              scenarioScene, []⟩ :=
  ⟨Or.inr ⟨scenarioTile, rfl, rfl⟩,
    apply_noop_without_model noDataContext 7 scenarioScene scenarioScene
      (Or.inr ⟨scenarioTile, rfl, rfl⟩)⟩

/-- C9, as stated, fails: after an abandoned `apply` the job still holds the model and the
scratch state, and after a completed merge it still holds the scratch state. -/
theorem apply_release_counterexample :
    (∃ r, scenarioJob.apply goneScene = Except.ok r
        ∧ r.job._model = some scenarioModel ∧ r.job._stateSet.isSome = true)
      ∧ (∃ r, scenarioJob.apply scenarioScene = Except.ok r
        ∧ r.job._model = none ∧ r.job._stateSet.isSome = true) :=
  ⟨⟨_, rfl, rfl, rfl⟩, ⟨_, rfl, rfl, rfl⟩⟩

/-! ## State sets -/

theorem lookup_cons_ite {α β : Type} [DecidableEq α] (k a : α) (b : β) (l : List (α × β)) :
    ((a, b) :: l).lookup k = if k = a then some b else l.lookup k := by
  by_cases h : k = a
  · subst h
    simp [List.lookup]
  · have hb : (k == a) = false := by simpa using h
    simp [List.lookup, hb, h]

theorem lookup_filter_ne {α β : Type} [DecidableEq α] (u k : α) (l : List (α × β)) :
    (l.filter (fun p => !(p.1 == u))).lookup k = if k = u then none else l.lookup k := by
  induction l with
  | nil => simp
  | cons p l ih =>
      obtain ⟨a, b⟩ := p
      by_cases hau : a = u
      · subst hau
        by_cases hk : k = a
        · subst hk
          simpa [List.filter_cons] using ih
        · simp only [List.filter_cons, lookup_cons_ite, hk, if_false] at ih ⊢
          simpa using ih
      · by_cases hk : k = u
        · subst hk
          have hka : ¬ k = a := fun h => hau h.symm
          simp only [List.filter_cons, lookup_cons_ite, if_true] at ih ⊢
          simp [hau, lookup_cons_ite, hka, ih]
        · simp only [hk, if_false] at ih ⊢
          simp [List.filter_cons, hau, lookup_cons_ite, ih]

theorem getTextureAttribute_set (ss : StateSet) (unit k : Nat) (attr : TextureAttribute) :
    (ss.setTextureAttribute unit attr).getTextureAttribute k
      = if k = unit then some attr else ss.getTextureAttribute k := by
  by_cases hk : k = unit
  · simp [StateSet.setTextureAttribute, StateSet.getTextureAttribute, lookup_cons_ite, hk]
  · simp [StateSet.setTextureAttribute, StateSet.getTextureAttribute, lookup_cons_ite, hk,
      lookup_filter_ne]

theorem getUniform_add (ss : StateSet) (name k : String) (value : Matrixf) :
    (ss.addUniform name value).getUniform k
      = if k = name then some value else ss.getUniform k := by
  by_cases hk : k = name
  · simp [StateSet.addUniform, StateSet.getUniform, lookup_cons_ite, hk]
  · simp [StateSet.addUniform, StateSet.getUniform, lookup_cons_ite, hk, lookup_filter_ne]

theorem getTextureAttribute_addUniform (ss : StateSet) (name : String) (value : Matrixf)
    (k : Nat) : (ss.addUniform name value).getTextureAttribute k = ss.getTextureAttribute k :=
  rfl

theorem getUniform_setTextureAttribute (ss : StateSet) (unit : Nat) (attr : TextureAttribute)
    (k : String) : (ss.setTextureAttribute unit attr).getUniform k = ss.getUniform k :=
  rfl

theorem getTextureAttribute_remove (ss : StateSet) (unit k : Nat) (attr : TextureAttribute)
    (h : ss.getTextureAttribute unit = some attr) :
    (ss.removeTextureAttribute unit attr).getTextureAttribute k
      = if k = unit then none else ss.getTextureAttribute k := by
  simp [StateSet.removeTextureAttribute, h]
  simp [StateSet.getTextureAttribute, lookup_filter_ne]

/-! ## The background phase -/

theorem invoke_built (ctx : EngineContext) (ref : TileRef) (scene : Scene) (t : TileNode)
    (model : TerrainTileModel) (hlock : scene.lock ref = some t)
    (hmodel : ctx.createTileModel ctx.mapFrame t.info.key = some model) :
    (LoadTileData.new ref ctx).invoke scene
      = ⟨ref, ctx, some model, some (prepStateSet ctx.renderBindings model StateSet.new)⟩ := by
  simp [LoadTileData.invoke, LoadTileData.new, LoadTileData.getStateSet, hlock, hmodel]

theorem foldl_setLayer_passes (layers : List TerrainTileImageLayerModel) :
    ∀ m : MPTexture,
      (layers.foldl
        (fun mptex layerModel =>
          match layerModel.texture with
          | some tex => mptex.setLayer layerModel.imageLayer tex
          | none => mptex) m).passes = m.passes ++ expectedPasses layers := by
  induction layers with
  | nil => intro m; simp [expectedPasses]
  | cons l ls ih =>
      intro m
      rw [List.foldl_cons, ih]
      cases hl : l.texture with
      | none => simp [expectedPasses, hl]
      | some tex => simp [expectedPasses, hl, MPTexture.setLayer]

theorem buildMPTexture_passes (layers : List TerrainTileImageLayerModel) :
    (buildMPTexture layers).passes = expectedPasses layers := by
  simp [buildMPTexture, foldl_setLayer_passes, MPTexture.new]

theorem expectedPasses_length (layers : List TerrainTileImageLayerModel) :
    (expectedPasses layers).length = (layers.filter (fun l => l.texture.isSome)).length := by
  induction layers with
  | nil => simp [expectedPasses]
  | cons l ls ih =>
      simp only [expectedPasses] at ih
      cases hl : l.texture <;> simp [expectedPasses, List.filterMap_cons, List.filter_cons, hl, ih]

theorem expectedPasses_eq_map (layers : List TerrainTileImageLayerModel) :
    (expectedPasses layers).map (fun p => (p.layer, some p.texture))
      = (layers.filter (fun l => l.texture.isSome)).map (fun l => (l.imageLayer, l.texture)) := by
  induction layers with
  | nil => simp [expectedPasses]
  | cons l ls ih =>
      simp only [expectedPasses] at ih
      cases hl : l.texture <;> simp [expectedPasses, List.filterMap_cons, List.filter_cons, hl, ih]

/-- C2: with a COLOR binding in the table, the composite built from a model's colour layers
has exactly the passes of the layers that have a texture: as many passes as such layers, in
the model's order, each carrying its layer and that layer's texture; layers without texture
add nothing. When there is at least one pass the colour step attaches this composite at the
COLOR binding's unit. -/
theorem composite_has_one_pass_per_textured_color_layer (bindings : RenderBindings)
    (model : TerrainTileModel) (colorBinding : SamplerBinding) (stateSet : StateSet)
    (hcolor : SamplerBinding.findUsage bindings Usage.COLOR = some colorBinding) :
    (buildMPTexture model.colorLayers).passes.map (fun p => (p.layer, some p.texture))
        = (model.colorLayers.filter (fun l => l.texture.isSome)).map
            (fun l => (l.imageLayer, l.texture))
      ∧ (buildMPTexture model.colorLayers).passes.length
          = (model.colorLayers.filter (fun l => l.texture.isSome)).length
      ∧ ((buildMPTexture model.colorLayers).passes ≠ [] →
          (prepColor bindings model stateSet).getTextureAttribute colorBinding.unit
            = some (TextureAttribute.mptexture (buildMPTexture model.colorLayers))) := by
  refine ⟨?_, ?_, ?_⟩
  · rw [buildMPTexture_passes, expectedPasses_eq_map]
  · rw [buildMPTexture_passes, expectedPasses_length]
  · intro hne
    have hlen : 0 < model.colorLayers.length := by
      rcases hcl : model.colorLayers with _ | ⟨l, ls⟩
      · rw [hcl] at hne
        simp [buildMPTexture, MPTexture.new] at hne
      · simp
    simp [prepColor, hlen, hcolor, hne, getTextureAttribute_set]

theorem composite_has_one_pass_per_textured_color_layer_witness :
    SamplerBinding.findUsage scenarioBindings Usage.COLOR
        = some ⟨BindingTarget.usage Usage.COLOR, 0, "colorMatrix"⟩
      ∧ ((buildMPTexture colorModel.colorLayers).passes.map (fun p => (p.layer, some p.texture))
          = (colorModel.colorLayers.filter (fun l => l.texture.isSome)).map
              (fun l => (l.imageLayer, l.texture))
        ∧ (buildMPTexture colorModel.colorLayers).passes.length
            = (colorModel.colorLayers.filter (fun l => l.texture.isSome)).length
        ∧ ((buildMPTexture colorModel.colorLayers).passes ≠ [] →
            (prepColor scenarioBindings colorModel StateSet.new).getTextureAttribute
                (⟨BindingTarget.usage Usage.COLOR, 0, "colorMatrix"⟩ : SamplerBinding).unit
              = some (TextureAttribute.mptexture (buildMPTexture colorModel.colorLayers)))) :=
  ⟨rfl,
    composite_has_one_pass_per_textured_color_layer scenarioBindings colorModel
      ⟨BindingTarget.usage Usage.COLOR, 0, "colorMatrix"⟩ StateSet.new rfl⟩

theorem mem_of_lookup_eq_some {α β : Type} [DecidableEq α] (k : α) (v : β)
    (l : List (α × β)) (h : l.lookup k = some v) : (k, v) ∈ l := by
  induction l with
  | nil => simp at h
  | cons p l ih =>
      obtain ⟨a, b⟩ := p
      rw [lookup_cons_ite] at h
      by_cases hk : k = a
      · simp only [hk, if_true, Option.some.injEq] at h
        simp [hk, h]
      · simp only [hk, if_false] at h
        exact List.mem_cons_of_mem _ (ih h)

theorem noComposite_new : StateSet.new.NoComposite := by
  intro p hp
  simp [StateSet.new] at hp

theorem noComposite_setTexture (ss : StateSet) (unit : Nat) (tex : Texture)
    (h : ss.NoComposite) :
    (ss.setTextureAttribute unit (TextureAttribute.texture tex)).NoComposite := by
  intro p hp m
  simp only [StateSet.setTextureAttribute, List.mem_cons, List.mem_filter] at hp
  rcases hp with hp | ⟨hp, _⟩
  · subst hp
    simp
  · exact h p hp m

theorem noComposite_addUniform (ss : StateSet) (name : String) (value : Matrixf)
    (h : ss.NoComposite) : (ss.addUniform name value).NoComposite := h

theorem noComposite_prepUsage (bindings : RenderBindings) (usage : Usage)
    (layerModel : Option TerrainTileLayerModel) (ss : StateSet) (h : ss.NoComposite) :
    (prepUsage bindings usage layerModel ss).NoComposite := by
  unfold prepUsage
  split
  · split
    · split
      · exact noComposite_addUniform _ _ _ (noComposite_setTexture _ _ _ h)
      · exact h
    · exact h
  · exact h

theorem noComposite_prepSharedLayer (bindings : RenderBindings) (ss : StateSet)
    (layerModel : TerrainTileImageLayerModel) (h : ss.NoComposite) :
    (prepSharedLayer bindings ss layerModel).NoComposite := by
  unfold prepSharedLayer
  split
  · split
    · exact noComposite_addUniform _ _ _ (noComposite_setTexture _ _ _ h)
    · exact h
  · exact h

theorem noComposite_prepShared (bindings : RenderBindings)
    (layers : List TerrainTileImageLayerModel) :
    ∀ ss : StateSet, ss.NoComposite → (prepShared bindings layers ss).NoComposite := by
  induction layers with
  | nil => intro ss h; exact h
  | cons l ls ih =>
      intro ss h
      exact ih _ (noComposite_prepSharedLayer bindings ss l h)

theorem expectedPasses_eq_nil (layers : List TerrainTileImageLayerModel)
    (h : ∀ l ∈ layers, l.texture = none) : expectedPasses layers = [] := by
  induction layers with
  | nil => rfl
  | cons l ls ih =>
      have hl : l.texture = none := h l (by simp)
      have hls : ∀ x ∈ ls, x.texture = none := fun x hx => h x (by simp [hx])
      have := ih hls
      simp only [expectedPasses] at this
      simp [expectedPasses, List.filterMap_cons, hl, this]

theorem prepColor_untextured (bindings : RenderBindings) (model : TerrainTileModel)
    (ss : StateSet) (h : ∀ l ∈ model.colorLayers, l.texture = none) :
    prepColor bindings model ss = ss := by
  unfold prepColor
  split
  · split
    · simp [buildMPTexture_passes, expectedPasses_eq_nil _ h]
    · rfl
  · rfl

/-- C3: when no colour layer of the model has a texture (in particular when there is no
colour layer), the scratch state the background phase produces for a new job holds no
composite texture: no attachment is a composite, and no unit yields one, whatever the
bindings. -/
theorem no_composite_without_textured_color_layer (ctx : EngineContext) (ref : TileRef)
    (scene : Scene) (t : TileNode) (model : TerrainTileModel)
    (hlock : scene.lock ref = some t)
    (hmodel : ctx.createTileModel ctx.mapFrame t.info.key = some model)
    (hnotex : ∀ l ∈ model.colorLayers, l.texture = none) :
    ∃ ss, ((LoadTileData.new ref ctx).invoke scene)._stateSet = some ss
      ∧ (∀ p ∈ ss.textureAttributes, ∀ m, p.2 ≠ TextureAttribute.mptexture m)
      ∧ (∀ unit m, ss.getTextureAttribute unit ≠ some (TextureAttribute.mptexture m)) := by
  have hnc : (prepStateSet ctx.renderBindings model StateSet.new).NoComposite := by
    unfold prepStateSet
    rw [prepColor_untextured _ _ _ hnotex]
    exact noComposite_prepShared _ _ _
      (noComposite_prepUsage _ _ _ _ (noComposite_prepUsage _ _ _ _ noComposite_new))
  refine ⟨_, by rw [invoke_built ctx ref scene t model hlock hmodel], hnc, ?_⟩
  intro unit m hget
  exact hnc _ (mem_of_lookup_eq_some _ _ _ hget) m rfl

theorem no_composite_without_textured_color_layer_witness :
    scenarioScene.lock 7 = some scenarioTile
      ∧ (scenarioContext.withModel untexturedModel).createTileModel
          (scenarioContext.withModel untexturedModel).mapFrame scenarioTile.info.key
          = some untexturedModel
      ∧ (∀ l ∈ untexturedModel.colorLayers, l.texture = none)
      ∧ ∃ ss,
          ((LoadTileData.new 7 (scenarioContext.withModel untexturedModel)).invoke
              scenarioScene)._stateSet = some ss
            ∧ (∀ p ∈ ss.textureAttributes, ∀ m, p.2 ≠ TextureAttribute.mptexture m)
            ∧ (∀ unit m, ss.getTextureAttribute unit ≠ some (TextureAttribute.mptexture m)) :=
  ⟨rfl, rfl, by decide,
    no_composite_without_textured_color_layer (scenarioContext.withModel untexturedModel) 7
      scenarioScene scenarioTile untexturedModel rfl rfl (by decide)⟩

/-- C7: when the model has an elevation layer with a texture and the table has no ELEVATION
binding, the elevation step leaves any state set as it is, and the scratch state the
background phase produces is the one it produces for the same model without its elevation
layer: no texture and no uniform come from the elevation layer. -/
theorem elevation_without_binding_attaches_nothing (ctx : EngineContext) (ref : TileRef)
    (scene : Scene) (t : TileNode) (model : TerrainTileModel) (elev : TerrainTileLayerModel)
    (tex : Texture) (hlock : scene.lock ref = some t)
    (hmodel : ctx.createTileModel ctx.mapFrame t.info.key = some model)
    (helev : model.elevationModel = some elev) (htex : elev.texture = some tex)
    (hnone : SamplerBinding.findUsage ctx.renderBindings Usage.ELEVATION = none) :
    (∀ ss, prepUsage ctx.renderBindings Usage.ELEVATION model.elevationModel ss = ss)
      ∧ ((LoadTileData.new ref ctx).invoke scene)._stateSet
          = ((LoadTileData.new ref
                (ctx.withModel { model with elevationModel := none })).invoke scene)._stateSet := by
  have hstep : ∀ ss, prepUsage ctx.renderBindings Usage.ELEVATION model.elevationModel ss = ss := by
    intro ss
    simp [prepUsage, helev, htex, hnone]
  refine ⟨hstep, ?_⟩
  rw [invoke_built ctx ref scene t model hlock hmodel,
    invoke_built (ctx.withModel { model with elevationModel := none }) ref scene t
      { model with elevationModel := none } hlock rfl]
  simp only [prepStateSet, hstep, EngineContext.withModel]
  simp [prepUsage, prepColor]

theorem elevation_without_binding_attaches_nothing_witness :
    scenarioScene.lock 7 = some scenarioTile
      ∧ colorOnlyContext.createTileModel colorOnlyContext.mapFrame scenarioTile.info.key
          = some scenarioModel
      ∧ scenarioModel.elevationModel = some ⟨some ⟨200⟩⟩
      ∧ (⟨some ⟨200⟩⟩ : TerrainTileLayerModel).texture = some ⟨200⟩
      ∧ SamplerBinding.findUsage colorOnlyContext.renderBindings Usage.ELEVATION = none
      ∧ ((∀ ss, prepUsage colorOnlyContext.renderBindings Usage.ELEVATION
              scenarioModel.elevationModel ss = ss)
        ∧ ((LoadTileData.new 7 colorOnlyContext).invoke scenarioScene)._stateSet
            = ((LoadTileData.new 7
                  (colorOnlyContext.withModel
                    { scenarioModel with elevationModel := none })).invoke
                scenarioScene)._stateSet) :=
  ⟨rfl, rfl, rfl, rfl, rfl,
    elevation_without_binding_attaches_nothing colorOnlyContext 7 scenarioScene scenarioTile
      scenarioModel ⟨some ⟨200⟩⟩ ⟨200⟩ rfl rfl rfl rfl rfl⟩

theorem prepShared_append (bindings : RenderBindings)
    (pre post : List TerrainTileImageLayerModel) (layer : TerrainTileImageLayerModel)
    (ss : StateSet) :
    prepShared bindings (pre ++ layer :: post) ss
      = prepShared bindings post (prepSharedLayer bindings (prepShared bindings pre ss) layer) := by
  simp [prepShared, List.foldl_append]

theorem prepSharedLayer_bound (bindings : RenderBindings) (ss : StateSet)
    (layer : TerrainTileImageLayerModel) (tex : Texture) (b : SamplerBinding)
    (htex : layer.texture = some tex)
    (hb : SamplerBinding.findUID bindings layer.imageLayer.uid = some b) :
    prepSharedLayer bindings ss layer
      = (ss.setTextureAttribute b.unit (TextureAttribute.texture tex)).addUniform
          b.matrixName Matrixf.identity := by
  simp [prepSharedLayer, htex, hb]

theorem prepSharedLayer_getUniform_identity (bindings : RenderBindings) (ss : StateSet)
    (layer : TerrainTileImageLayerModel) (name : String)
    (h : ss.getUniform name = some Matrixf.identity) :
    (prepSharedLayer bindings ss layer).getUniform name = some Matrixf.identity := by
  unfold prepSharedLayer
  split
  · split
    · rw [getUniform_add]
      split
      · rfl
      · rw [getUniform_setTextureAttribute]; exact h
    · exact h
  · exact h

theorem prepShared_getUniform_identity (bindings : RenderBindings)
    (layers : List TerrainTileImageLayerModel) (name : String) :
    ∀ ss : StateSet, ss.getUniform name = some Matrixf.identity →
      (prepShared bindings layers ss).getUniform name = some Matrixf.identity := by
  induction layers with
  | nil => intro ss h; exact h
  | cons l ls ih =>
      intro ss h
      exact ih _ (prepSharedLayer_getUniform_identity bindings ss l name h)

theorem prepSharedLayer_getTexture_other (bindings : RenderBindings) (ss : StateSet)
    (layer : TerrainTileImageLayerModel) (unit : Nat)
    (h : ∀ tex b, layer.texture = some tex →
      SamplerBinding.findUID bindings layer.imageLayer.uid = some b → b.unit ≠ unit) :
    (prepSharedLayer bindings ss layer).getTextureAttribute unit
      = ss.getTextureAttribute unit := by
  unfold prepSharedLayer
  split
  · rename_i tex htex
    split
    · rename_i b hb
      have hne : ¬ unit = b.unit := fun e => h tex b htex hb e.symm
      rw [getTextureAttribute_addUniform, getTextureAttribute_set, if_neg hne]
    · rfl
  · rfl

theorem prepShared_getTexture_other (bindings : RenderBindings) (unit : Nat)
    (layers : List TerrainTileImageLayerModel) :
    ∀ ss : StateSet,
      (∀ l ∈ layers, ∀ tex b, l.texture = some tex →
        SamplerBinding.findUID bindings l.imageLayer.uid = some b → b.unit ≠ unit) →
      (prepShared bindings layers ss).getTextureAttribute unit
        = ss.getTextureAttribute unit := by
  induction layers with
  | nil => intro ss _; rfl
  | cons l ls ih =>
      intro ss h
      have h1 := prepSharedLayer_getTexture_other bindings ss l unit (h l (by simp))
      have h2 := ih (prepSharedLayer bindings ss l) (fun x hx => h x (by simp [hx]))
      simpa [prepShared, h1] using h2.trans h1

theorem findUID_target (bindings : RenderBindings) (uid : UID) (b : SamplerBinding)
    (h : SamplerBinding.findUID bindings uid = some b) : b.target = BindingTarget.layer uid := by
  have := List.find?_some h
  simpa using this

theorem findUsage_target (bindings : RenderBindings) (usage : Usage) (b : SamplerBinding)
    (h : SamplerBinding.findUsage bindings usage = some b) :
    b.target = BindingTarget.usage usage := by
  have := List.find?_some h
  simpa using this

/-- C8: a shared layer with a texture is bound through the binding registered for its layer
id. Without such a binding, whatever else the table holds, the layer's step leaves any state
set as it is, and the scratch state of the background phase equals the one produced for the
model without that layer. With such a binding (whose target is the layer id, not a usage),
the layer's step attaches the texture at the binding's unit and installs an identity uniform
under the binding's matrix name; in the finished scratch state that uniform is still the
identity, and the texture is still at that unit unless a later shared layer is bound to the
same unit. The background phase always returns. -/
theorem shared_layer_bound_by_uid (ctx : EngineContext) (ref : TileRef) (scene : Scene)
    (t : TileNode) (model : TerrainTileModel) (pre post : List TerrainTileImageLayerModel)
    (layer : TerrainTileImageLayerModel) (tex : Texture)
    (hlock : scene.lock ref = some t)
    (hmodel : ctx.createTileModel ctx.mapFrame t.info.key = some model)
    (hshared : model.sharedLayers = pre ++ layer :: post)
    (htex : layer.texture = some tex) :
    (SamplerBinding.findUID ctx.renderBindings layer.imageLayer.uid = none →
        (∀ ss, prepSharedLayer ctx.renderBindings ss layer = ss)
          ∧ ((LoadTileData.new ref ctx).invoke scene)._stateSet
              = ((LoadTileData.new ref
                    (ctx.withModel { model with sharedLayers := pre ++ post })).invoke
                  scene)._stateSet)
      ∧ (∀ b, SamplerBinding.findUID ctx.renderBindings layer.imageLayer.uid = some b →
          b.target = BindingTarget.layer layer.imageLayer.uid
            ∧ (∀ ss,
                (prepSharedLayer ctx.renderBindings ss layer).getTextureAttribute b.unit
                    = some (TextureAttribute.texture tex)
                  ∧ (prepSharedLayer ctx.renderBindings ss layer).getUniform b.matrixName
                    = some Matrixf.identity)
            ∧ ∃ ss, ((LoadTileData.new ref ctx).invoke scene)._stateSet = some ss
                ∧ ss.getUniform b.matrixName = some Matrixf.identity
                ∧ ((∀ l ∈ post, ∀ tex2 b2, l.texture = some tex2 →
                      SamplerBinding.findUID ctx.renderBindings l.imageLayer.uid = some b2 →
                      b2.unit ≠ b.unit) →
                    ss.getTextureAttribute b.unit = some (TextureAttribute.texture tex))) := by
  rw [invoke_built ctx ref scene t model hlock hmodel]
  constructor
  · intro hnone
    have hstep : ∀ ss, prepSharedLayer ctx.renderBindings ss layer = ss := by
      intro ss
      simp [prepSharedLayer, htex, hnone]
    refine ⟨hstep, ?_⟩
    rw [invoke_built (ctx.withModel { model with sharedLayers := pre ++ post }) ref scene t
      { model with sharedLayers := pre ++ post } hlock rfl]
    simp only [prepStateSet, hshared, prepShared_append, hstep, EngineContext.withModel]
    simp [prepShared, List.foldl_append, prepColor]
  · intro b hb
    have hstep : ∀ ss,
        (prepSharedLayer ctx.renderBindings ss layer).getTextureAttribute b.unit
            = some (TextureAttribute.texture tex)
          ∧ (prepSharedLayer ctx.renderBindings ss layer).getUniform b.matrixName
            = some Matrixf.identity := by
      intro ss
      rw [prepSharedLayer_bound ctx.renderBindings ss layer tex b htex hb]
      constructor
      · rw [getTextureAttribute_addUniform, getTextureAttribute_set, if_pos rfl]
      · rw [getUniform_add, if_pos rfl]
    refine ⟨findUID_target _ _ _ hb, hstep, _, rfl, ?_, ?_⟩
    · simp only [prepStateSet, hshared, prepShared_append]
      exact prepShared_getUniform_identity _ _ _ _ (hstep _).2
    · intro hpost
      simp only [prepStateSet, hshared, prepShared_append]
      rw [prepShared_getTexture_other _ _ _ _ hpost]
      exact (hstep _).1

theorem shared_layer_bound_by_uid_witness :
    scenarioScene.lock 7 = some scenarioTile
      ∧ sharedContext.createTileModel sharedContext.mapFrame scenarioTile.info.key
          = some sharedModel
      ∧ sharedModel.sharedLayers
          = [⟨⟨41⟩, some ⟨301⟩⟩] ++ (⟨⟨42⟩, some ⟨302⟩⟩ : TerrainTileImageLayerModel)
              :: [⟨⟨43⟩, none⟩]
      ∧ (⟨⟨42⟩, some ⟨302⟩⟩ : TerrainTileImageLayerModel).texture = some ⟨302⟩
      ∧ SamplerBinding.findUID sharedContext.renderBindings 42 = none
      ∧ ((SamplerBinding.findUID sharedContext.renderBindings
              (⟨⟨42⟩, some ⟨302⟩⟩ : TerrainTileImageLayerModel).imageLayer.uid = none →
            (∀ ss, prepSharedLayer sharedContext.renderBindings ss ⟨⟨42⟩, some ⟨302⟩⟩ = ss)
              ∧ ((LoadTileData.new 7 sharedContext).invoke scenarioScene)._stateSet
                  = ((LoadTileData.new 7
                        (sharedContext.withModel
                          { sharedModel with
                            sharedLayers := [⟨⟨41⟩, some ⟨301⟩⟩] ++ [⟨⟨43⟩, none⟩] })).invoke
                      scenarioScene)._stateSet)
        ∧ (∀ b, SamplerBinding.findUID sharedContext.renderBindings
              (⟨⟨42⟩, some ⟨302⟩⟩ : TerrainTileImageLayerModel).imageLayer.uid = some b →
            b.target
                = BindingTarget.layer
                  (⟨⟨42⟩, some ⟨302⟩⟩ : TerrainTileImageLayerModel).imageLayer.uid
              ∧ (∀ ss,
                  (prepSharedLayer sharedContext.renderBindings ss
                        ⟨⟨42⟩, some ⟨302⟩⟩).getTextureAttribute b.unit
                      = some (TextureAttribute.texture ⟨302⟩)
                    ∧ (prepSharedLayer sharedContext.renderBindings ss
                        ⟨⟨42⟩, some ⟨302⟩⟩).getUniform b.matrixName
                      = some Matrixf.identity)
              ∧ ∃ ss, ((LoadTileData.new 7 sharedContext).invoke scenarioScene)._stateSet
                    = some ss
                  ∧ ss.getUniform b.matrixName = some Matrixf.identity
                  ∧ ((∀ l ∈ [(⟨⟨43⟩, none⟩ : TerrainTileImageLayerModel)], ∀ tex2 b2,
                        l.texture = some tex2 →
                        SamplerBinding.findUID sharedContext.renderBindings l.imageLayer.uid
                          = some b2 →
                        b2.unit ≠ b.unit) →
                      ss.getTextureAttribute b.unit
                        = some (TextureAttribute.texture ⟨302⟩)))) :=
  ⟨rfl, rfl, rfl, rfl, rfl,
    shared_layer_bound_by_uid sharedContext 7 scenarioScene scenarioTile sharedModel
      [⟨⟨41⟩, some ⟨301⟩⟩] [⟨⟨43⟩, none⟩] ⟨⟨42⟩, some ⟨302⟩⟩ ⟨302⟩ rfl rfl rfl rfl⟩

/-! ## Build followed by merge, with a COLOR binding -/

theorem units_ne_of_targets_ne (bindings : RenderBindings)
    (hdistinct : bindings.Pairwise (fun a b => a.unit ≠ b.unit)) (a b : SamplerBinding)
    (ha : a ∈ bindings) (hb : b ∈ bindings) (hne : a.target ≠ b.target) : a.unit ≠ b.unit := by
  have hsymm : Symmetric (fun a b : SamplerBinding => a.unit ≠ b.unit) :=
    fun _ _ h => Ne.symm h
  exact hdistinct.forall hsymm ha hb (fun e => hne (by rw [e]))

theorem findUsage_mem (bindings : RenderBindings) (usage : Usage) (b : SamplerBinding)
    (h : SamplerBinding.findUsage bindings usage = some b) : b ∈ bindings :=
  List.mem_of_find?_eq_some h

theorem findUID_mem (bindings : RenderBindings) (uid : UID) (b : SamplerBinding)
    (h : SamplerBinding.findUID bindings uid = some b) : b ∈ bindings :=
  List.mem_of_find?_eq_some h

theorem prepUsage_getTexture_other (bindings : RenderBindings) (usage : Usage)
    (layerModel : Option TerrainTileLayerModel) (ss : StateSet) (unit : Nat)
    (h : ∀ b, SamplerBinding.findUsage bindings usage = some b → b.unit ≠ unit) :
    (prepUsage bindings usage layerModel ss).getTextureAttribute unit
      = ss.getTextureAttribute unit := by
  unfold prepUsage
  split
  · split
    · split
      · rename_i b hb
        have hne : ¬ unit = b.unit := fun e => h b hb e.symm
        rw [getTextureAttribute_addUniform, getTextureAttribute_set, if_neg hne]
      · rfl
    · rfl
  · rfl

theorem prepUsage_getUniform_identity (bindings : RenderBindings) (usage : Usage)
    (layerModel : Option TerrainTileLayerModel) (ss : StateSet) (name : String)
    (h : ss.getUniform name = some Matrixf.identity) :
    (prepUsage bindings usage layerModel ss).getUniform name = some Matrixf.identity := by
  unfold prepUsage
  split
  · split
    · split
      · rw [getUniform_add]
        split
        · rfl
        · rw [getUniform_setTextureAttribute]; exact h
      · exact h
    · exact h
  · exact h

theorem prepColor_getTexture (bindings : RenderBindings) (model : TerrainTileModel)
    (cb : SamplerBinding)
    (hcolor : SamplerBinding.findUsage bindings Usage.COLOR = some cb) :
    (prepColor bindings model StateSet.new).getTextureAttribute cb.unit
      = if expectedPasses model.colorLayers = [] then none
        else some (TextureAttribute.mptexture ⟨expectedPasses model.colorLayers⟩) := by
  by_cases hlen : model.colorLayers.length > 0
  · by_cases hp : expectedPasses model.colorLayers = []
    · simp [prepColor, hlen, hcolor, buildMPTexture_passes, hp, StateSet.getTextureAttribute,
        StateSet.new]
    · have hb : buildMPTexture model.colorLayers = ⟨expectedPasses model.colorLayers⟩ := by
        have := buildMPTexture_passes model.colorLayers
        cases hbm : buildMPTexture model.colorLayers
        rw [hbm] at this
        simpa using this
      simp [prepColor, hlen, hcolor, buildMPTexture_passes, hp, getTextureAttribute_set, hb]
  · have hnil : model.colorLayers = [] := by
      cases hcl : model.colorLayers with
      | nil => rfl
      | cons l ls => rw [hcl] at hlen; simp at hlen
    simp [prepColor, hnil, expectedPasses, StateSet.getTextureAttribute, StateSet.new]

theorem prepStateSet_color_unit (bindings : RenderBindings) (model : TerrainTileModel)
    (cb : SamplerBinding) (hdistinct : bindings.Pairwise (fun a b => a.unit ≠ b.unit))
    (hcolor : SamplerBinding.findUsage bindings Usage.COLOR = some cb) :
    (prepStateSet bindings model StateSet.new).getTextureAttribute cb.unit
      = if expectedPasses model.colorLayers = [] then none
        else some (TextureAttribute.mptexture ⟨expectedPasses model.colorLayers⟩) := by
  have hcbmem := findUsage_mem _ _ _ hcolor
  have hcbt := findUsage_target _ _ _ hcolor
  have husage : ∀ usage, usage ≠ Usage.COLOR →
      ∀ b, SamplerBinding.findUsage bindings usage = some b → b.unit ≠ cb.unit := by
    intro usage hu b hb
    refine units_ne_of_targets_ne bindings hdistinct b cb (findUsage_mem _ _ _ hb) hcbmem ?_
    rw [findUsage_target _ _ _ hb, hcbt]
    intro e
    exact hu (BindingTarget.usage.inj e)
  have hshared : ∀ l ∈ model.sharedLayers, ∀ tex b, l.texture = some tex →
      SamplerBinding.findUID bindings l.imageLayer.uid = some b → b.unit ≠ cb.unit := by
    intro l _ tex b _ hb
    refine units_ne_of_targets_ne bindings hdistinct b cb (findUID_mem _ _ _ hb) hcbmem ?_
    rw [findUID_target _ _ _ hb, hcbt]
    intro e
    cases e
  unfold prepStateSet
  rw [prepShared_getTexture_other _ _ _ _ hshared,
    prepUsage_getTexture_other _ _ _ _ _ (husage Usage.NORMAL (by decide)),
    prepUsage_getTexture_other _ _ _ _ _ (husage Usage.ELEVATION (by decide)),
    prepColor_getTexture _ _ _ hcolor]

theorem prepStateSet_elevation (bindings : RenderBindings) (model : TerrainTileModel)
    (ss : StateSet) (elev : TerrainTileLayerModel) (tex : Texture) (eb : SamplerBinding)
    (hdistinct : bindings.Pairwise (fun a b => a.unit ≠ b.unit))
    (helev : model.elevationModel = some elev) (htex : elev.texture = some tex)
    (heb : SamplerBinding.findUsage bindings Usage.ELEVATION = some eb) :
    (prepStateSet bindings model ss).getTextureAttribute eb.unit
        = some (TextureAttribute.texture tex)
      ∧ (prepStateSet bindings model ss).getUniform eb.matrixName
        = some Matrixf.identity := by
  have hebmem := findUsage_mem _ _ _ heb
  have hebt := findUsage_target _ _ _ heb
  have hnormal : ∀ b, SamplerBinding.findUsage bindings Usage.NORMAL = some b →
      b.unit ≠ eb.unit := by
    intro b hb
    refine units_ne_of_targets_ne bindings hdistinct b eb (findUsage_mem _ _ _ hb) hebmem ?_
    rw [findUsage_target _ _ _ hb, hebt]
    intro e
    cases e
  have hshared : ∀ l ∈ model.sharedLayers, ∀ tex b, l.texture = some tex →
      SamplerBinding.findUID bindings l.imageLayer.uid = some b → b.unit ≠ eb.unit := by
    intro l _ tex b _ hb
    refine units_ne_of_targets_ne bindings hdistinct b eb (findUID_mem _ _ _ hb) hebmem ?_
    rw [findUID_target _ _ _ hb, hebt]
    intro e
    cases e
  have hstep : ∀ s0,
      prepUsage bindings Usage.ELEVATION model.elevationModel s0
        = (s0.setTextureAttribute eb.unit (TextureAttribute.texture tex)).addUniform
            eb.matrixName Matrixf.identity := by
    intro s0
    simp [prepUsage, helev, htex, heb]
  unfold prepStateSet
  constructor
  · rw [prepShared_getTexture_other _ _ _ _ hshared,
      prepUsage_getTexture_other _ _ _ _ _ hnormal, hstep,
      getTextureAttribute_addUniform, getTextureAttribute_set, if_pos rfl]
  · apply prepShared_getUniform_identity
    apply prepUsage_getUniform_identity
    rw [hstep, getUniform_add, if_pos rfl]

theorem uniforms_removeTextureAttribute (ss : StateSet) (unit : Nat) (attr : TextureAttribute) :
    (ss.removeTextureAttribute unit attr).uniforms = ss.uniforms := by
  unfold StateSet.removeTextureAttribute
  split <;> rfl

/-- Supporting C4: with pairwise distinct units and a COLOR binding in the table, when the
tile resolves in both phases, `apply` returns; its calls are one merge call followed by the
visit of the tile's subtree, and no other merge call; the merge call carries the composite of
the textured colour layers (none when there is none) and a state set that has nothing at
the COLOR unit, agrees with the built scratch state at every other unit and on all uniforms,
and holds a bound textured elevation layer's texture and identity uniform; afterwards the
tile's dirty flag is false. -/
theorem apply_merges_once_with_composite (ctx : EngineContext) (ref : TileRef)
    (scene1 scene2 : Scene) (t1 t2 : TileNode) (model : TerrainTileModel)
    (cb : SamplerBinding)
    (hdistinct : ctx.renderBindings.Pairwise (fun a b => a.unit ≠ b.unit))
    (hcolor : SamplerBinding.findUsage ctx.renderBindings Usage.COLOR = some cb)
    (hlock1 : scene1.lock ref = some t1)
    (hmodel : ctx.createTileModel ctx.mapFrame t1.info.key = some model)
    (hlock2 : scene2.lock ref = some t2) :
    ∃ r built merged,
      ((LoadTileData.new ref ctx).invoke scene1)._stateSet = some built
        ∧ ((LoadTileData.new ref ctx).invoke scene1).apply scene2 = Except.ok r
        ∧ r.calls
            = Call.mergeStateSet ref merged
                (if expectedPasses model.colorLayers = [] then none
                  else some ⟨expectedPasses model.colorLayers⟩) ctx.renderBindings
              :: UpdateInheritance.accept
                  ⟨ctx.renderBindings, ctx.selectionInfo, ctx.mapFrame.mapInfo, ctx.tileSize⟩
                  t2.toNode
        ∧ r.calls.filter Call.isMergeStateSet
            = [Call.mergeStateSet ref merged
                (if expectedPasses model.colorLayers = [] then none
                  else some ⟨expectedPasses model.colorLayers⟩) ctx.renderBindings]
        ∧ merged.getTextureAttribute cb.unit = none
        ∧ (∀ unit, unit ≠ cb.unit →
            merged.getTextureAttribute unit = built.getTextureAttribute unit)
        ∧ merged.uniforms = built.uniforms
        ∧ (∀ elev tex eb, model.elevationModel = some elev → elev.texture = some tex →
            SamplerBinding.findUsage ctx.renderBindings Usage.ELEVATION = some eb →
            merged.getTextureAttribute eb.unit = some (TextureAttribute.texture tex)
              ∧ merged.getUniform eb.matrixName = some Matrixf.identity)
        ∧ (r.scene.lock ref).map (fun t => t.info.dirty) = some false := by
  have href : t2.info.ref = ref := lock_ref hlock2
  have hcu := prepStateSet_color_unit ctx.renderBindings model cb hdistinct hcolor
  have helevation : ∀ (merged : StateSet),
      (∀ unit, unit ≠ cb.unit → merged.getTextureAttribute unit
        = (prepStateSet ctx.renderBindings model StateSet.new).getTextureAttribute unit) →
      merged.uniforms = (prepStateSet ctx.renderBindings model StateSet.new).uniforms →
      ∀ elev tex eb, model.elevationModel = some elev → elev.texture = some tex →
        SamplerBinding.findUsage ctx.renderBindings Usage.ELEVATION = some eb →
        merged.getTextureAttribute eb.unit = some (TextureAttribute.texture tex)
          ∧ merged.getUniform eb.matrixName = some Matrixf.identity := by
    intro merged hother hunif elev tex eb helev htex heb
    have hne : eb.unit ≠ cb.unit := by
      refine units_ne_of_targets_ne ctx.renderBindings hdistinct eb cb
        (findUsage_mem _ _ _ heb) (findUsage_mem _ _ _ hcolor) ?_
      rw [findUsage_target _ _ _ heb, findUsage_target _ _ _ hcolor]
      intro e
      cases e
    have := prepStateSet_elevation ctx.renderBindings model StateSet.new elev tex eb hdistinct
      helev htex heb
    refine ⟨by rw [hother _ hne]; exact this.1, ?_⟩
    have h2 := this.2
    simp only [StateSet.getUniform] at h2 ⊢
    rw [hunif]; exact h2
  have hdirty : ((scene2.setDirty t2.info.ref false).lock ref).map (fun t => t.info.dirty)
      = some false := by
    rw [href, lock_setDirty, hlock2]
    rfl
  rw [invoke_built ctx ref scene1 t1 model hlock1 hmodel]
  by_cases hp : expectedPasses model.colorLayers = []
  · rw [if_pos hp] at hcu
    refine ⟨⟨⟨ref, ctx, none, some (prepStateSet ctx.renderBindings model StateSet.new)⟩,
        scene2.setDirty t2.info.ref false,
        Call.mergeStateSet t2.info.ref (prepStateSet ctx.renderBindings model StateSet.new)
          none ctx.renderBindings
          :: UpdateInheritance.accept
              ⟨ctx.renderBindings, ctx.selectionInfo, ctx.mapFrame.mapInfo, ctx.tileSize⟩
              t2.toNode⟩,
      _, prepStateSet ctx.renderBindings model StateSet.new, rfl, ?_, ?_, ?_, hcu,
      fun _ _ => rfl, rfl, helevation _ (fun _ _ => rfl) rfl, hdirty⟩
    · simp only [LoadTileData.apply, hlock2, hcolor, LoadTileData.getStateSet, Option.getD_some,
        hcu, TextureAttribute.asMPTexture]
    · simp [hp, href]
    · simp [hp, href, Call.isMergeStateSet, accept_not_merge]
  · rw [if_neg hp] at hcu
    have hrem := getTextureAttribute_remove (prepStateSet ctx.renderBindings model StateSet.new)
      cb.unit
    refine ⟨⟨⟨ref, ctx, none, some
          ((prepStateSet ctx.renderBindings model StateSet.new).removeTextureAttribute cb.unit
            (TextureAttribute.mptexture ⟨expectedPasses model.colorLayers⟩))⟩,
        scene2.setDirty t2.info.ref false,
        Call.mergeStateSet t2.info.ref
          ((prepStateSet ctx.renderBindings model StateSet.new).removeTextureAttribute cb.unit
            (TextureAttribute.mptexture ⟨expectedPasses model.colorLayers⟩))
          (some ⟨expectedPasses model.colorLayers⟩) ctx.renderBindings
          :: UpdateInheritance.accept
              ⟨ctx.renderBindings, ctx.selectionInfo, ctx.mapFrame.mapInfo, ctx.tileSize⟩
              t2.toNode⟩,
      _, (prepStateSet ctx.renderBindings model StateSet.new).removeTextureAttribute
      cb.unit (TextureAttribute.mptexture ⟨expectedPasses model.colorLayers⟩), rfl, ?_, ?_, ?_,
      ?_, ?_, uniforms_removeTextureAttribute _ _ _, helevation _ ?_
        (uniforms_removeTextureAttribute _ _ _), hdirty⟩
    · simp only [LoadTileData.apply, hlock2, hcolor, LoadTileData.getStateSet, Option.getD_some,
        hcu, TextureAttribute.asMPTexture]
    · simp [hp, href]
    · simp [hp, href, Call.isMergeStateSet, accept_not_merge]
    · rw [hrem cb.unit _ hcu, if_pos rfl]
    · intro unit hne
      rw [hrem unit _ hcu, if_neg hne]
    · intro unit hne
      rw [hrem unit _ hcu, if_neg hne]

theorem apply_merges_once_with_composite_witness :
    scenarioContext.renderBindings.Pairwise (fun a b => a.unit ≠ b.unit)
      ∧ SamplerBinding.findUsage scenarioContext.renderBindings Usage.COLOR
          = some ⟨BindingTarget.usage Usage.COLOR, 0, "colorMatrix"⟩
      ∧ scenarioScene.lock 7 = some scenarioTile
      ∧ scenarioContext.createTileModel scenarioContext.mapFrame scenarioTile.info.key
          = some scenarioModel
      ∧ ∃ r built merged,
          ((LoadTileData.new 7 scenarioContext).invoke scenarioScene)._stateSet = some built
            ∧ ((LoadTileData.new 7 scenarioContext).invoke scenarioScene).apply scenarioScene
                = Except.ok r
            ∧ r.calls
                = Call.mergeStateSet 7 merged
                    (if expectedPasses scenarioModel.colorLayers = [] then none
                      else some ⟨expectedPasses scenarioModel.colorLayers⟩)
                    scenarioContext.renderBindings
                  :: UpdateInheritance.accept
                      ⟨scenarioContext.renderBindings, scenarioContext.selectionInfo,
                        scenarioContext.mapFrame.mapInfo, scenarioContext.tileSize⟩
                      scenarioTile.toNode
            ∧ r.calls.filter Call.isMergeStateSet
                = [Call.mergeStateSet 7 merged
                    (if expectedPasses scenarioModel.colorLayers = [] then none
                      else some ⟨expectedPasses scenarioModel.colorLayers⟩)
                    scenarioContext.renderBindings]
            ∧ merged.getTextureAttribute
                (⟨BindingTarget.usage Usage.COLOR, 0, "colorMatrix"⟩ : SamplerBinding).unit = none
            ∧ (∀ unit,
                unit ≠ (⟨BindingTarget.usage Usage.COLOR, 0, "colorMatrix"⟩ : SamplerBinding).unit →
                merged.getTextureAttribute unit = built.getTextureAttribute unit)
            ∧ merged.uniforms = built.uniforms
            ∧ (∀ elev tex eb, scenarioModel.elevationModel = some elev →
                elev.texture = some tex →
                SamplerBinding.findUsage scenarioContext.renderBindings Usage.ELEVATION
                  = some eb →
                merged.getTextureAttribute eb.unit = some (TextureAttribute.texture tex)
                  ∧ merged.getUniform eb.matrixName = some Matrixf.identity)
            ∧ (r.scene.lock 7).map (fun t => t.info.dirty) = some false :=
  ⟨by simp [scenarioContext, scenarioBindings], rfl, rfl, rfl,
    apply_merges_once_with_composite scenarioContext 7 scenarioScene scenarioScene scenarioTile
      scenarioTile scenarioModel ⟨BindingTarget.usage Usage.COLOR, 0, "colorMatrix"⟩
      (by simp [scenarioContext, scenarioBindings]) rfl rfl rfl rfl⟩

/-! ## What the job holds after the merge phase -/

theorem asMPTexture_eq_some (attr : Option TextureAttribute) (m : MPTexture)
    (h : TextureAttribute.asMPTexture attr = some m) :
    attr = some (TextureAttribute.mptexture m) := by
  cases attr with
  | none => simp [TextureAttribute.asMPTexture] at h
  | some a =>
      cases a with
      | texture t => simp [TextureAttribute.asMPTexture] at h
      | mptexture m2 =>
          simp only [TextureAttribute.asMPTexture, Option.some.injEq] at h
          rw [h]

/-- C9, amended: when `apply` runs on a job that holds a model and returns, then if the tile
resolved (the merge was completed) the job is as before except that it no longer holds the
model and that its scratch state, which it still holds, has the composite detached: the
state set kept by the job has no composite at the COLOR unit (nothing at all there when a
composite was attached, the plain texture when one was), and agrees with the scratch state
from before at every other unit and on all uniforms. If the tile was gone the job is exactly
as before, model and scratch state included. -/
theorem apply_releases_model_only_after_merge (job : LoadTileData) (scene : Scene)
    (model : TerrainTileModel) (r : ApplyResult) (hmodel : job._model = some model)
    (hr : job.apply scene = Except.ok r) :
    (∀ t, scene.lock job._tilenode = some t →
        ∃ color ss,
          SamplerBinding.findUsage job._context.renderBindings Usage.COLOR = some color
            ∧ r.job = { job with _model := none, _stateSet := some ss }
            ∧ r.job._model = none
            ∧ r.job._stateSet = some ss
            ∧ TextureAttribute.asMPTexture (ss.getTextureAttribute color.unit) = none
            ∧ (∀ m, job.getStateSet.getTextureAttribute color.unit
                  = some (TextureAttribute.mptexture m) →
                ss.getTextureAttribute color.unit = none)
            ∧ (∀ tex, job.getStateSet.getTextureAttribute color.unit
                  = some (TextureAttribute.texture tex) →
                ss.getTextureAttribute color.unit = some (TextureAttribute.texture tex))
            ∧ (∀ unit, unit ≠ color.unit →
                ss.getTextureAttribute unit = job.getStateSet.getTextureAttribute unit)
            ∧ ss.uniforms = job.getStateSet.uniforms)
      ∧ (scene.lock job._tilenode = none → r.job = job) := by
  constructor
  · intro t ht
    simp only [LoadTileData.apply, hmodel, ht] at hr
    cases hc : SamplerBinding.findUsage job._context.renderBindings Usage.COLOR with
    | none => simp [hc] at hr
    | some color =>
        simp only [hc, Except.ok.injEq] at hr
        cases hm : TextureAttribute.asMPTexture
            (job.getStateSet.getTextureAttribute color.unit) with
        | none =>
            simp only [hm] at hr
            subst hr
            refine ⟨color, job.getStateSet, rfl, rfl, rfl, rfl, hm, ?_, ?_,
              fun _ _ => rfl, rfl⟩
            · intro m hget
              rw [hget] at hm
              simp [TextureAttribute.asMPTexture] at hm
            · intro tex hget
              exact hget
        | some m =>
            simp only [hm] at hr
            subst hr
            have hget := asMPTexture_eq_some _ m hm
            have hrem := getTextureAttribute_remove job.getStateSet color.unit
            refine ⟨color,
              job.getStateSet.removeTextureAttribute color.unit (TextureAttribute.mptexture m),
              rfl, rfl, rfl, rfl, ?_, ?_, ?_, ?_, uniforms_removeTextureAttribute _ _ _⟩
            · rw [hrem color.unit _ hget, if_pos rfl]
              rfl
            · intro _ _
              rw [hrem color.unit _ hget, if_pos rfl]
            · intro tex htex
              rw [hget] at htex
              simp at htex
            · intro unit hne
              rw [hrem unit _ hget, if_neg hne]
  · intro hgone
    simp only [LoadTileData.apply, hmodel, hgone, Except.ok.injEq] at hr
    subst hr
    rfl

theorem apply_releases_model_only_after_merge_witness :
    scenarioJob._model = some scenarioModel
      ∧ scenarioJob.apply scenarioScene = Except.ok scenarioMerged
      ∧ scenarioJob.getStateSet.getTextureAttribute 0
          = some (TextureAttribute.mptexture ⟨[⟨⟨5⟩, ⟨100⟩⟩]⟩)
      ∧ ((∀ t, scenarioScene.lock scenarioJob._tilenode = some t →
            ∃ color ss,
              SamplerBinding.findUsage scenarioJob._context.renderBindings Usage.COLOR
                  = some color
                ∧ scenarioMerged.job = { scenarioJob with _model := none, _stateSet := some ss }
                ∧ scenarioMerged.job._model = none
                ∧ scenarioMerged.job._stateSet = some ss
                ∧ TextureAttribute.asMPTexture (ss.getTextureAttribute color.unit) = none
                ∧ (∀ m, scenarioJob.getStateSet.getTextureAttribute color.unit
                      = some (TextureAttribute.mptexture m) →
                    ss.getTextureAttribute color.unit = none)
                ∧ (∀ tex, scenarioJob.getStateSet.getTextureAttribute color.unit
                      = some (TextureAttribute.texture tex) →
                    ss.getTextureAttribute color.unit = some (TextureAttribute.texture tex))
                ∧ (∀ unit, unit ≠ color.unit →
                    ss.getTextureAttribute unit
                      = scenarioJob.getStateSet.getTextureAttribute unit)
                ∧ ss.uniforms = scenarioJob.getStateSet.uniforms)
        ∧ (scenarioScene.lock scenarioJob._tilenode = none →
            scenarioMerged.job = scenarioJob)) :=
  ⟨rfl, rfl, rfl,
    apply_releases_model_only_after_merge scenarioJob scenarioScene scenarioModel
      scenarioMerged rfl rfl⟩

end RexTerrainEngine
